import Mathlib

/-!
Verification of the generator transition system of `robrkerr/tensorflow-models`
(syntaxnet/generator_state.cc, syntaxnet/generator_transitions.cc and the dragnn
beam wrapper generator_transition_state.cc) against its specification.

Modelling conventions:
* machine `int` is modelled as `Int`; all arithmetic in the source is far from
  overflow for the vocabulary sizes involved.
* `CHECK(...)` in the source aborts the process unconditionally; an operation
  guarded by a `CHECK` is modelled as returning `Option`, with `none` for the
  fatal path.  `DCHECK(...)` is compiled out in release builds and performs no
  control flow, so it is modelled as a no-op.
* `std::vector<int> stack_` uses `push_back`/`back`/`pop_back`, i.e. the back of
  the vector is the top of the stack.  We model it as a `List Int` whose HEAD is
  the top of the stack (list order is the reverse of vector order); the bottom
  of the stack is the last element of the list.
* the token arrays `head_`, `label_`, `tag_`, `word_` keep source order
  (list index = token id) and grow at the end.
* `score_` (a `double`/`float` that the core only ever stores and copies, never
  computes with) is modelled as an `Int`.
* `GeneratorAction` (`typedef int` in generator_transitions.h) is written
  plainly as `Int`.
-/

/-- Shallow embedding of `syntaxnet::GeneratorState` (generator_state.h).
The sentence pointer and the vocabulary maps do not affect any claim and are
omitted; all fields the transitions touch are present. -/
structure GeneratorState where
  stack : List Int
  head : List Int
  label : List Int
  tag : List Int
  word : List Int
  next : Int
  score : Int
  keep_history : Bool
  history : List Int
deriving Repr, DecidableEq

/-- `Push(index)`: `stack_.push_back(index)`. -/
def GeneratorState.Push (s : GeneratorState) (index : Int) : GeneratorState :=
  { s with stack := index :: s.stack }

/-- `Pop()`: `CHECK(!StackEmpty())`, then removes and returns the back of the
stack; the fatal CHECK on an empty stack is the `none` branch. -/
def GeneratorState.Pop (s : GeneratorState) : Option (Int × GeneratorState) :=
  match s.stack with
  | [] => none
  | x :: rest => some (x, { s with stack := rest })

/-- `Top()`: `CHECK(!StackEmpty())`, then returns the back of the stack. -/
def GeneratorState.Top (s : GeneratorState) : Option Int :=
  s.stack.head?

/-- `StackSize()`. -/
def GeneratorState.StackSize (s : GeneratorState) : Nat :=
  s.stack.length

/-- `StackEmpty()`. -/
def GeneratorState.StackEmpty (s : GeneratorState) : Bool :=
  s.stack.isEmpty

/-- `Stack(position)`: the element `position` places from the top of the stack
(`stack_[size - 1 - position]`), `-2` when `position` is negative or past the
bottom of the stack. -/
def GeneratorState.Stack (s : GeneratorState) (position : Int) : Int :=
  if position < 0 then -2
  else s.stack.getD position.toNat (-2)

/-- `Head(index)`: `-1` for the root, otherwise `head_[index]`.  The source
`CHECK`s `-1 <= index < head_.size()`; outside that range the C++ process
aborts, so the `getD` default is unreachable in any checked execution and every
theorem below stays inside the checked domain. -/
def GeneratorState.Head (s : GeneratorState) (index : Int) : Int :=
  if index = -1 then -1 else s.head.getD index.toNat (-2)

/-- `Label(index)` needs the root label for `-1`; not used by any claim's
statement, kept for completeness with root label passed in. -/
def GeneratorState.LabelAt (s : GeneratorState) (rootLabel index : Int) : Int :=
  if index = -1 then rootLabel else s.label.getD index.toNat (-2)

/-- `MissingWord()`: `head_.size() > word_.size()`. -/
def GeneratorState.MissingWord (s : GeneratorState) : Bool :=
  s.word.length < s.head.length

/-- `Add(label, tag)`: `CHECK(StackSize() > 1)`; then `s0 = stack_.back()`,
pushes `next_`, appends `s0`/`label`/`tag` to `head_`/`label_`/`tag_` and
increments `next_`.  The fatal CHECK (fewer than two stack entries) is the
`none` branch. -/
def GeneratorState.Add (s : GeneratorState) (label tag : Int) : Option GeneratorState :=
  match s.stack with
  | s0 :: r1 :: rest =>
    some { s with
      stack := s.next :: s0 :: r1 :: rest,
      head := s.head ++ [s0],
      label := s.label ++ [label],
      tag := s.tag ++ [tag],
      next := s.next + 1 }
  | _ => none

/-- `AddWord(word)`: `CHECK(StackSize() > 1)`; appends `word` to `word_`. -/
def GeneratorState.AddWord (s : GeneratorState) (word : Int) : Option GeneratorState :=
  match s.stack with
  | _ :: _ :: _ => some { s with word := s.word ++ [word] }
  | _ => none

/-- `Parent(index, n)`: apply the `Head` function `n` times
(`while (n-- > 0) index = Head(index)`). -/
def GeneratorState.Parent (s : GeneratorState) (index : Int) : Nat → Int
  | 0 => index
  | n + 1 => s.Parent (s.Head index) n

/-- Inner scan of `LeftmostChild`: `for (i = -1; i < index; ++i)` breaking when
`Head(i) == index`; on exhaustion `i` has reached `index` (the caller turns that
into `-2`).  `fuel` is the number of loop iterations left, so the scan starts at
`scanUpChild s index (-1) ((index + 1).toNat)`. -/
def scanUpChild (s : GeneratorState) (target : Int) : Int → Nat → Int
  | i, 0 => i
  | i, fuel + 1 => if s.Head i = target then i else scanUpChild s target (i + 1) fuel

/-- `LeftmostChild(index, n)`: `n` levels of leftmost-child; each level scans
positions from `-1` upward and returns `-2` when the scan reaches `index`
without finding a child. -/
def GeneratorState.LeftmostChild (s : GeneratorState) (index : Int) : Nat → Int
  | 0 => index
  | n + 1 =>
    let i := scanUpChild s index (-1) ((index + 1).toNat)
    if i = index then -2 else s.LeftmostChild i n

/-- Inner scan of `RightmostChild`: `for (i = head_.size() - 1; i > index; --i)`
breaking when `Head(i) == index`; on exhaustion `i` has reached `index`. -/
def scanDownChild (s : GeneratorState) (target : Int) : Int → Nat → Int
  | i, 0 => i
  | i, fuel + 1 => if s.Head i = target then i else scanDownChild s target (i - 1) fuel

/-- `RightmostChild(index, n)`: `n` levels of rightmost-child; each level scans
positions from `head_.size() - 1` downward and returns `-2` when the scan
reaches `index` without finding a child. -/
def GeneratorState.RightmostChild (s : GeneratorState) (index : Int) : Nat → Int
  | 0 => index
  | n + 1 =>
    let start : Int := (s.head.length : Int) - 1
    let i := scanDownChild s index start (start - index).toNat
    if i = index then -2 else s.RightmostChild i n

/-- Loop of `LeftSibling`: `--i; if (i == -1) return -2;
if (Head(i) == Head(index)) --n;` repeated `while (n > 0)`.  The first argument
is the current value of `i` (a non-negative position, as an `Int` it would hit
`-1` exactly); the scan examines position `i - 1` next. -/
def lsibScan (s : GeneratorState) (h0 : Int) : Nat → Nat → Int
  | 0, _ => -2
  | i + 1, n =>
    if s.Head (i : Int) = h0 then
      if n ≤ 1 then (i : Int) else lsibScan s h0 i (n - 1)
    else lsibScan s h0 i n

/-- `LeftSibling(index, n)`: `n = 0` returns `index`; the root (`-1`) has no
siblings; otherwise scan left counting positions sharing `Head(index)`. -/
def GeneratorState.LeftSibling (s : GeneratorState) (index : Int) (n : Nat) : Int :=
  if n = 0 then index
  else if index = -1 then -2
  else lsibScan s (s.Head index) index.toNat n

/-- Loop of `RightSibling`: `++i; if (i == head_.size()) return -2;
if (Head(i) == Head(index)) --n;` repeated `while (n > 0)`.  `fuel` is
`head_.size() - 1 - i`, so `fuel = 0` means the increment would reach
`head_.size()`. -/
def rsibScan (s : GeneratorState) (h0 : Int) : Nat → Nat → Nat → Int
  | 0, _, _ => -2
  | fuel + 1, i, n =>
    if s.Head ((i : Int) + 1) = h0 then
      if n ≤ 1 then (i : Int) + 1 else rsibScan s h0 fuel (i + 1) (n - 1)
    else rsibScan s h0 fuel (i + 1) n

/-- `RightSibling(index, n)`: `n = 0` returns `index`; the root (`-1`) has no
siblings; otherwise scan right counting positions sharing `Head(index)`. -/
def GeneratorState.RightSibling (s : GeneratorState) (index : Int) (n : Nat) : Int :=
  if n = 0 then index
  else if index = -1 then -2
  else rsibScan s (s.Head index) (s.head.length - (index.toNat + 1)) index.toNat n

/-- `Clone()` (generator_state.cc): copies every field of the state. -/
def GeneratorState.Clone (s : GeneratorState) : GeneratorState :=
  { stack := s.stack, head := s.head, label := s.label, tag := s.tag,
    word := s.word, next := s.next, score := s.score,
    keep_history := s.keep_history, history := s.history }

/-- The `GeneratorState` constructor: `next_ = 0`, every container empty,
history tracking off. -/
def GeneratorState.initial : GeneratorState :=
  { stack := [], head := [], label := [], tag := [], word := [], next := 0,
    score := 0, keep_history := false, history := [] }

/-- `GeneratorTransitionState::Init(state)`: `state->Push(-1)`, run on the
freshly constructed state (generator_transitions.cc line 42). -/
def initState : GeneratorState :=
  GeneratorState.initial.Push (-1)

/-- The three action types of the generator transition system. -/
inductive GeneratorActionType
  | COLLAPSE
  | ADD
  | WORD
deriving Repr, DecidableEq

/-- A structured (decoded) action, used to state the codec round-trip. -/
inductive StructuredAction
  | collapse
  | add (label tag : Int)
  | word (w : Int)
deriving Repr, DecidableEq

/-- `syntaxnet::GeneratorTransitionSystem` with its vocabulary sizes
(`num_labels`, `num_tags`, `num_words`). -/
structure GeneratorTransitionSystem where
  num_labels : Int
  num_tags : Int
  num_words : Int
deriving Repr, DecidableEq

/-- `CollapseAction()`: a COLLAPSE is encoded as `0`. -/
def CollapseAction : Int := 0

/-- `AddAction(label, tag) = 1 + label + num_labels * tag`. -/
def GeneratorTransitionSystem.AddAction (sys : GeneratorTransitionSystem)
    (label tag : Int) : Int :=
  1 + label + sys.num_labels * tag

/-- `WordAction(word) = 1 + num_labels * num_tags + word`. -/
def GeneratorTransitionSystem.WordAction (sys : GeneratorTransitionSystem)
    (word : Int) : Int :=
  1 + sys.num_labels * sys.num_tags + word

/-- `ActionType(action)`: `0` is COLLAPSE, `action <= num_labels * num_tags`
is ADD, anything larger is WORD. -/
def GeneratorTransitionSystem.ActionType (sys : GeneratorTransitionSystem)
    (action : Int) : GeneratorActionType :=
  if action = 0 then .COLLAPSE
  else if action ≤ sys.num_labels * sys.num_tags then .ADD
  else .WORD

/-- `Label(action)`: `(action - 1) % num_labels` for an ADD action, `-1` for
others. -/
def GeneratorTransitionSystem.Label (sys : GeneratorTransitionSystem)
    (action : Int) : Int :=
  if 0 < action ∧ action ≤ sys.num_labels * sys.num_tags then
    (action - 1) % sys.num_labels
  else -1

/-- `Tag(action)`: `(action - 1) / num_labels` for an ADD action, `-1` for
others. -/
def GeneratorTransitionSystem.Tag (sys : GeneratorTransitionSystem)
    (action : Int) : Int :=
  if 0 < action ∧ action ≤ sys.num_labels * sys.num_tags then
    (action - 1) / sys.num_labels
  else -1

/-- `Word(action)`: `action - num_labels * num_tags - 1` for a WORD action,
`-1` for others. -/
def GeneratorTransitionSystem.Word (sys : GeneratorTransitionSystem)
    (action : Int) : Int :=
  if sys.num_labels * sys.num_tags < action then
    action - sys.num_labels * sys.num_tags - 1
  else -1

/-- `NumActions()`: `1 + num_labels * num_tags + num_words`. -/
def GeneratorTransitionSystem.NumActions (sys : GeneratorTransitionSystem) : Int :=
  1 + sys.num_labels * sys.num_tags + sys.num_words

/-- Encoding of a structured action through the source encoders. -/
def GeneratorTransitionSystem.encode (sys : GeneratorTransitionSystem) :
    StructuredAction → Int
  | .collapse => CollapseAction
  | .add l t => sys.AddAction l t
  | .word w => sys.WordAction w

/-- Decoding of an action integer through the source extractors, exactly the
dispatch `PerformActionWithoutHistory` performs. -/
def GeneratorTransitionSystem.decode (sys : GeneratorTransitionSystem)
    (a : Int) : StructuredAction :=
  match sys.ActionType a with
  | .COLLAPSE => .collapse
  | .ADD => .add (sys.Label a) (sys.Tag a)
  | .WORD => .word (sys.Word a)

/-- Domain of structured actions for the codec round-trip. -/
def GeneratorTransitionSystem.validAction (sys : GeneratorTransitionSystem) :
    StructuredAction → Bool
  | .collapse => true
  | .add l t => decide (0 ≤ l) && decide (l < sys.num_labels)
      && decide (0 ≤ t) && decide (t < sys.num_tags)
  | .word w => decide (0 ≤ w) && decide (w < sys.num_words)

/-- `IsAllowedCollapse(state)`: `!state.MissingWord() && state.StackSize() > 2`. -/
def GeneratorTransitionSystem.IsAllowedCollapse (_sys : GeneratorTransitionSystem)
    (state : GeneratorState) : Bool :=
  !state.MissingWord && decide (2 < state.StackSize)

/-- `IsAllowedAdd(state)`: `!state.MissingWord()`. -/
def GeneratorTransitionSystem.IsAllowedAdd (_sys : GeneratorTransitionSystem)
    (state : GeneratorState) : Bool :=
  !state.MissingWord

/-- `IsAllowedWord(state)`: `state.MissingWord()`. -/
def GeneratorTransitionSystem.IsAllowedWord (_sys : GeneratorTransitionSystem)
    (state : GeneratorState) : Bool :=
  state.MissingWord

/-- `IsAllowedAction(action, state)`: dispatch on `ActionType(action)`. -/
def GeneratorTransitionSystem.IsAllowedAction (sys : GeneratorTransitionSystem)
    (action : Int) (state : GeneratorState) : Bool :=
  match sys.ActionType action with
  | .COLLAPSE => sys.IsAllowedCollapse state
  | .ADD => sys.IsAllowedAdd state
  | .WORD => sys.IsAllowedWord state

/-- `PerformCollapse(state)`: `DCHECK(IsAllowedCollapse(*state))` (debug-only,
erased in release builds) then `state->Pop()`; only `Pop`'s own CHECK can
abort. -/
def GeneratorTransitionSystem.PerformCollapse (_sys : GeneratorTransitionSystem)
    (state : GeneratorState) : Option GeneratorState :=
  (state.Pop).map (fun p => p.2)

/-- `PerformAdd(state, label, tag)`: `DCHECK(IsAllowedAdd(*state))` (erased in
release) then `state->Add(label, tag)`. -/
def GeneratorTransitionSystem.PerformAdd (_sys : GeneratorTransitionSystem)
    (state : GeneratorState) (label tag : Int) : Option GeneratorState :=
  state.Add label tag

/-- `PerformWord(state, word)`: `DCHECK(IsAllowedWord(*state))` (erased in
release) then `state->AddWord(word)`. -/
def GeneratorTransitionSystem.PerformWord (_sys : GeneratorTransitionSystem)
    (state : GeneratorState) (word : Int) : Option GeneratorState :=
  state.AddWord word

/-- `PerformActionWithoutHistory(action, state)`: dispatch by decoded action
type to `PerformCollapse` / `PerformAdd` / `PerformWord`. -/
def GeneratorTransitionSystem.PerformActionWithoutHistory
    (sys : GeneratorTransitionSystem) (action : Int)
    (state : GeneratorState) : Option GeneratorState :=
  match sys.ActionType action with
  | .COLLAPSE => sys.PerformCollapse state
  | .ADD => sys.PerformAdd state (sys.Label action) (sys.Tag action)
  | .WORD => sys.PerformWord state (sys.Word action)

/-- `IsDeterministicState(state)`: `state.StackSize() < 2`. -/
def GeneratorTransitionSystem.IsDeterministicState (_sys : GeneratorTransitionSystem)
    (state : GeneratorState) : Bool :=
  decide (state.StackSize < 2)

/-- `IsFinalState(state)`: `state.StackSize() < 2`. -/
def GeneratorTransitionSystem.IsFinalState (_sys : GeneratorTransitionSystem)
    (state : GeneratorState) : Bool :=
  decide (state.StackSize < 2)

/-- Sequential application of encoded actions through
`PerformActionWithoutHistory`, stopping at the first fatal CHECK. -/
def runActions (sys : GeneratorTransitionSystem) :
    GeneratorState → List Int → Option GeneratorState
  | s, [] => some s
  | s, a :: rest =>
    match sys.PerformActionWithoutHistory a s with
    | none => none
    | some s2 => runActions sys s2 rest

/-- Modelled from the spec: `Add(label, tag)` as the specification's scenario
requires it, attaching the new token to the current top of the stack.  The
spec's end-to-end scenario starts with `Add` at stack depth 1 (attaching to the
root), so the working precondition is a non-empty stack; every other step is
exactly `GeneratorState::Add`.  Used only to exhibit the behaviour the
specification intends where the source's `CHECK(StackSize() > 1)` aborts. -/
def GeneratorState.AddSpec (s : GeneratorState) (label tag : Int) : Option GeneratorState :=
  match s.stack with
  | s0 :: rest =>
    some { s with
      stack := s.next :: s0 :: rest,
      head := s.head ++ [s0],
      label := s.label ++ [label],
      tag := s.tag ++ [tag],
      next := s.next + 1 }
  | [] => none

/-- Dispatch of `PerformActionWithoutHistory` with `AddSpec` in place of `Add`
(see `GeneratorState.AddSpec`). -/
def GeneratorTransitionSystem.PerformActionSpec (sys : GeneratorTransitionSystem)
    (action : Int) (state : GeneratorState) : Option GeneratorState :=
  match sys.ActionType action with
  | .COLLAPSE => sys.PerformCollapse state
  | .ADD => state.AddSpec (sys.Label action) (sys.Tag action)
  | .WORD => sys.PerformWord state (sys.Word action)

/-- `runActions` over `PerformActionSpec`. -/
def runActionsSpec (sys : GeneratorTransitionSystem) :
    GeneratorState → List Int → Option GeneratorState
  | s, [] => some s
  | s, a :: rest =>
    match sys.PerformActionSpec a s with
    | none => none
    | some s2 => runActionsSpec sys s2 rest

/-- A state reachable from the `Init()` state by successfully applying actions
allowed by the legality predicates. -/
inductive ReachableState (sys : GeneratorTransitionSystem) : GeneratorState → Prop
  | init : ReachableState sys initState
  | step {s s2 : GeneratorState} {a : Int} :
      ReachableState sys s →
      sys.IsAllowedAction a s = true →
      sys.PerformActionWithoutHistory a s = some s2 →
      ReachableState sys s2

/-- The structural invariant of claim C4: aligned array lengths, `word` lagging
by at most one, `next` equal to the token count, and the root sentinel at the
bottom of the stack (the last element of the top-first list model). -/
def StateInv (s : GeneratorState) : Prop :=
  s.head.length = s.label.length ∧
  s.head.length = s.tag.length ∧
  (s.word.length = s.head.length ∨ s.word.length + 1 = s.head.length) ∧
  s.next = (s.head.length : Int) ∧
  s.stack.getLast? = some (-1)

/-- Number of positions strictly left of `x` whose head equals `Head(x)`
(the left siblings of `x`). -/
def leftSiblingCount (s : GeneratorState) (x : Int) : Nat :=
  (List.range x.toNat).countP (fun (j : Nat) => decide (s.Head (j : Int) = s.Head x))

/-- Number of positions strictly right of `x` (and below `head_.size()`) whose
head equals `Head(x)` (the right siblings of `x`). -/
def rightSiblingCount (s : GeneratorState) (x : Int) : Nat :=
  (List.range' (x.toNat + 1) (s.head.length - (x.toNat + 1))).countP
    (fun (j : Nat) => decide (s.Head (j : Int) = s.Head x))

/-- The system of the end-to-end scenario: `L = 2` labels, `T = 1` tag,
`W = 2` words. -/
def sys212 : GeneratorTransitionSystem := ⟨2, 1, 2⟩

/-- A degenerate system with `L = T = W = 1`, used for codec counterexamples. -/
def sys111 : GeneratorTransitionSystem := ⟨1, 1, 1⟩

/-- The final state the specification's end-to-end scenario expects. -/
def c3Expected : GeneratorState :=
  { stack := [-1], head := [-1, 0], label := [0, 1], tag := [0, 0],
    word := [0, 1], next := 2, score := 0, keep_history := false, history := [] }

/-- A well-formed mid-construction state: one token (head `-1`, word filled),
stack `[0, -1]` (top first), depth 2, not missing a word. -/
def midState : GeneratorState :=
  { stack := [0, -1], head := [-1], label := [0], tag := [0], word := [0],
    next := 1, score := 0, keep_history := false, history := [] }

/-- `midState` after a successful `Add 1 0`. -/
def midStateAdded : GeneratorState :=
  { stack := [1, 0, -1], head := [-1, 0], label := [0, 1], tag := [0, 0],
    word := [0], next := 2, score := 0, keep_history := false, history := [] }

/-- `midStateAdded` after a successful `AddWord 1`. -/
def midStateWorded : GeneratorState :=
  { stack := [1, 0, -1], head := [-1, 0], label := [0, 1], tag := [0, 0],
    word := [0, 1], next := 2, score := 0, keep_history := false, history := [] }

/-- `midState` after `PerformCollapse` (which pops even though
`IsAllowedCollapse` is false at depth 2). -/
def midStatePopped : GeneratorState :=
  { stack := [-1], head := [-1], label := [0], tag := [0], word := [0],
    next := 1, score := 0, keep_history := false, history := [] }

/-- A small tree for navigation witnesses: token 0 under the root, tokens 1
and 2 under token 0. -/
def navState : GeneratorState :=
  { stack := [-1], head := [-1, 0, 0], label := [0, 0, 0], tag := [0, 0, 0],
    word := [0, 0, 0], next := 3, score := 0, keep_history := false, history := [] }

/-- A three-token chain for the child-query counterexample: token 0 under the
root, token 1 under token 0, token 2 under token 1 (`head = [-1, 0, 1]`). -/
def chainState : GeneratorState :=
  { stack := [-1], head := [-1, 0, 1], label := [0, 0, 0], tag := [0, 0, 0],
    word := [0, 0, 0], next := 3, score := 0, keep_history := false, history := [] }

/-- Number of generated positions whose head is `x`: the children of `x` in
the current partial tree. -/
def childCount (s : GeneratorState) (x : Int) : Nat :=
  (List.range s.head.length).countP (fun (j : Nat) => decide (s.Head (j : Int) = x))

/-- The diagnostic trace object attached to a beam hypothesis (an opaque
protocol-buffer message in the source; only created, copied and dropped here). -/
structure ComponentTrace where
  data : List Int
deriving Repr, DecidableEq

/-- Shallow embedding of `syntaxnet::dragnn::GeneratorTransitionState`
(the beam hypothesis wrapper of src/unnamed/part_000).  `sentence_tokens` is
`sentence_->sentence()->token_size()` of the wrapped external sentence;
`score_` is a `float` that is only stored and copied, modelled as `Int`. -/
structure DragnnTransitionState where
  generator_state : GeneratorState
  sentence_tokens : Nat
  score : Int
  current_beam_index : Int
  parent_beam_index : Int
  step_for_token : List Int
  parent_for_token : List Int
  parent_step_for_token : List Int
  trace : Option ComponentTrace
deriving Repr, DecidableEq

/-- The wrapper constructor (part_000 lines 9-18): score 0, current beam index
`-1`, parent beam index 0, the three provenance arrays sized to the sentence's
token count and filled with the unset sentinel `-1`, no trace. -/
def DragnnTransitionState.create (gs : GeneratorState) (tokenSize : Nat) :
    DragnnTransitionState :=
  { generator_state := gs, sentence_tokens := tokenSize, score := 0,
    current_beam_index := -1, parent_beam_index := 0,
    step_for_token := List.replicate tokenSize (-1),
    parent_for_token := List.replicate tokenSize (-1),
    parent_step_for_token := List.replicate tokenSize (-1),
    trace := none }

/-- `Init(parent)` (part_000 lines 20-23): `score_ = parent.GetScore();
parent_beam_index_ = parent.GetBeamIndex();`. -/
def DragnnTransitionState.Init (s parent : DragnnTransitionState) :
    DragnnTransitionState :=
  { s with score := parent.score, parent_beam_index := parent.current_beam_index }

/-- `Clone()` (part_000 lines 25-46): constructs a fresh wrapper around a clone
of the wrapped state, then copies score, both beam indices, the three
provenance arrays, and copies the trace when present. -/
def DragnnTransitionState.Clone (s : DragnnTransitionState) : DragnnTransitionState :=
  let base := DragnnTransitionState.create (s.generator_state.Clone) s.sentence_tokens
  { base with
    score := s.score,
    current_beam_index := s.current_beam_index,
    parent_beam_index := s.parent_beam_index,
    step_for_token := s.step_for_token,
    parent_step_for_token := s.parent_step_for_token,
    parent_for_token := s.parent_for_token,
    trace := s.trace.map (fun tr => { data := tr.data }) }

/-! ### Helper lemmas -/

theorem decode_eq_collapse (sys : GeneratorTransitionSystem) {a : Int}
    (h : sys.ActionType a = .COLLAPSE) : sys.decode a = .collapse := by
  unfold GeneratorTransitionSystem.decode
  rw [h]

theorem decode_eq_add (sys : GeneratorTransitionSystem) {a : Int}
    (h : sys.ActionType a = .ADD) :
    sys.decode a = .add (sys.Label a) (sys.Tag a) := by
  unfold GeneratorTransitionSystem.decode
  rw [h]

theorem decode_eq_word (sys : GeneratorTransitionSystem) {a : Int}
    (h : sys.ActionType a = .WORD) : sys.decode a = .word (sys.Word a) := by
  unfold GeneratorTransitionSystem.decode
  rw [h]

theorem Add_effect {s s2 : GeneratorState} {l t : Int} (h : s.Add l t = some s2) :
    2 ≤ s.stack.length
  ∧ s2.stack = s.next :: s.stack
  ∧ (∃ s0, s.stack.head? = some s0 ∧ s2.head = s.head ++ [s0])
  ∧ s2.label = s.label ++ [l]
  ∧ s2.tag = s.tag ++ [t]
  ∧ s2.word = s.word
  ∧ s2.next = s.next + 1 := by
  unfold GeneratorState.Add at h
  split at h
  next s0 r1 rest heq =>
    cases h
    refine ⟨by rw [heq]; simp only [List.length_cons]; omega,
      by rw [heq], ⟨s0, by rw [heq]; rfl, rfl⟩, rfl, rfl, rfl, rfl⟩
  next => cases h

theorem AddWord_effect {s s3 : GeneratorState} {w : Int} (h : s.AddWord w = some s3) :
    2 ≤ s.stack.length
  ∧ s3.stack = s.stack
  ∧ s3.head = s.head
  ∧ s3.label = s.label
  ∧ s3.tag = s.tag
  ∧ s3.word = s.word ++ [w]
  ∧ s3.next = s.next := by
  unfold GeneratorState.AddWord at h
  split at h
  next x y rest heq =>
    cases h
    exact ⟨by rw [heq]; simp only [List.length_cons]; omega, rfl, rfl, rfl, rfl, rfl, rfl⟩
  next => cases h

theorem PerformCollapse_effect {sys : GeneratorTransitionSystem}
    {s s2 : GeneratorState} (h : sys.PerformCollapse s = some s2) :
    (∃ x, s.stack = x :: s2.stack)
  ∧ s2.head = s.head
  ∧ s2.label = s.label
  ∧ s2.tag = s.tag
  ∧ s2.word = s.word
  ∧ s2.next = s.next := by
  unfold GeneratorTransitionSystem.PerformCollapse GeneratorState.Pop at h
  cases hstk : s.stack with
  | nil => rw [hstk] at h; cases h
  | cons x rest =>
    rw [hstk] at h
    simp only [Option.map_some'] at h
    cases h
    exact ⟨⟨x, rfl⟩, rfl, rfl, rfl, rfl, rfl⟩

/-! ### Claim theorems -/

/-- C1: for every state, the legality predicates decide actions exactly as the
table specifies: a Collapse-kind action is allowed iff the state is not missing
a word and the stack size is greater than 2; an Add-kind action is allowed iff
the state is not missing a word; a Word-kind action is allowed iff the state is
missing a word. -/
theorem c1_legality_table (sys : GeneratorTransitionSystem) (a : Int)
    (s : GeneratorState) :
    (sys.ActionType a = .COLLAPSE →
      (sys.IsAllowedAction a s = true ↔ (s.MissingWord = false ∧ 2 < s.StackSize)))
  ∧ (sys.ActionType a = .ADD →
      (sys.IsAllowedAction a s = true ↔ s.MissingWord = false))
  ∧ (sys.ActionType a = .WORD →
      (sys.IsAllowedAction a s = true ↔ s.MissingWord = true)) := by
  unfold GeneratorTransitionSystem.IsAllowedAction
  refine ⟨fun h => ?_, fun h => ?_, fun h => ?_⟩ <;>
    simp only [h] <;>
    simp [GeneratorTransitionSystem.IsAllowedCollapse,
      GeneratorTransitionSystem.IsAllowedAdd, GeneratorTransitionSystem.IsAllowedWord,
      Bool.and_eq_true, Bool.not_eq_true', decide_eq_true_iff]

/-- Witness for C1 at the concrete system `L=2, T=1, W=2`, action `0`
(Collapse) and the `Init()` state. -/
theorem c1_legality_table_witness :
    sys212.IsAllowedAction 0 initState = true ↔
      (initState.MissingWord = false ∧ 2 < initState.StackSize) :=
  (c1_legality_table sys212 0 initState).1 (by decide)

/-- C3 (code bug): the spec's end-to-end scenario `Add(0,0)`, `AddWord(0)`,
`Add(1,0)`, `AddWord(1)`, `Collapse`, `Collapse` from `Init()` with `L=2, T=1,
W=2`.  The very first `Add` (encoded action 1) is permitted by
`IsAllowedAdd` yet aborts on `GeneratorState::Add`'s `CHECK(StackSize() > 1)`
(the `Init()` stack holds only the root), so the run dies at step one; with the
spec-intended `Add` precondition (`AddSpec`, non-empty stack) the same sequence
produces exactly the final state the claim describes. -/
theorem c3_scenario_first_add_fatal :
    sys212.IsAllowedAction (sys212.AddAction 0 0) initState = true
  ∧ sys212.AddAction 0 0 = 1
  ∧ sys212.PerformActionWithoutHistory 1 initState = none
  ∧ runActions sys212 initState [1, 3, 2, 4, 0, 0] = none
  ∧ runActionsSpec sys212 initState [1, 3, 2, 4, 0, 0] = some c3Expected
  ∧ c3Expected.head = [-1, 0] ∧ c3Expected.label = [0, 1] ∧ c3Expected.word = [0, 1]
  ∧ c3Expected.stack = [-1] ∧ sys212.IsFinalState c3Expected = true := by
  decide

/-- C9: `Clone()` copies the stack, the head/label/tag/word arrays, the `next`
counter, the history and the history-tracking flag; in this value-semantics
embedding the clone shares no mutable storage with the source, and it behaves
identically to the source under every action. -/
theorem c9_clone_copies_state (s : GeneratorState) (sys : GeneratorTransitionSystem)
    (a : Int) :
    ((s.Clone).stack = s.stack ∧ (s.Clone).head = s.head ∧ (s.Clone).label = s.label
      ∧ (s.Clone).tag = s.tag ∧ (s.Clone).word = s.word ∧ (s.Clone).next = s.next
      ∧ (s.Clone).history = s.history ∧ (s.Clone).keep_history = s.keep_history)
  ∧ sys.PerformActionWithoutHistory a (s.Clone) = sys.PerformActionWithoutHistory a s :=
  ⟨⟨rfl, rfl, rfl, rfl, rfl, rfl, rfl, rfl⟩, rfl⟩

/-- C10: `Init(parent)` sets exactly the score (from the parent's score) and
the parent beam index (from the parent's current beam index), leaving all other
fields unchanged; `Clone()` copies score, both beam indices, the three
provenance arrays, deep-clones the wrapped state and copies the trace when
present; a freshly constructed wrapper has score 0, current beam index `-1`,
parent beam index 0, and all three provenance arrays sized to the sentence's
token count with every entry `-1`. -/
theorem c10_wrapper_init_clone_fresh (s parent : DragnnTransitionState)
    (gs : GeneratorState) (n : Nat) :
    ((s.Init parent).score = parent.score
      ∧ (s.Init parent).parent_beam_index = parent.current_beam_index
      ∧ (s.Init parent).current_beam_index = s.current_beam_index
      ∧ (s.Init parent).generator_state = s.generator_state
      ∧ (s.Init parent).step_for_token = s.step_for_token
      ∧ (s.Init parent).parent_for_token = s.parent_for_token
      ∧ (s.Init parent).parent_step_for_token = s.parent_step_for_token
      ∧ (s.Init parent).trace = s.trace)
  ∧ ((s.Clone).score = s.score
      ∧ (s.Clone).current_beam_index = s.current_beam_index
      ∧ (s.Clone).parent_beam_index = s.parent_beam_index
      ∧ (s.Clone).step_for_token = s.step_for_token
      ∧ (s.Clone).parent_for_token = s.parent_for_token
      ∧ (s.Clone).parent_step_for_token = s.parent_step_for_token
      ∧ (s.Clone).generator_state = s.generator_state.Clone
      ∧ (s.Clone).trace = s.trace)
  ∧ ((DragnnTransitionState.create gs n).score = 0
      ∧ (DragnnTransitionState.create gs n).current_beam_index = -1
      ∧ (DragnnTransitionState.create gs n).parent_beam_index = 0
      ∧ (DragnnTransitionState.create gs n).step_for_token = List.replicate n (-1)
      ∧ (DragnnTransitionState.create gs n).parent_for_token = List.replicate n (-1)
      ∧ (DragnnTransitionState.create gs n).parent_step_for_token = List.replicate n (-1)
      ∧ (DragnnTransitionState.create gs n).trace = none) := by
  refine ⟨⟨rfl, rfl, rfl, rfl, rfl, rfl, rfl, rfl⟩,
    ⟨rfl, rfl, rfl, rfl, rfl, rfl, rfl, ?_⟩,
    ⟨rfl, rfl, rfl, rfl, rfl, rfl, rfl⟩⟩
  show s.trace.map (fun tr => { data := tr.data }) = s.trace
  cases s.trace <;> rfl

/-- C2: for vocabulary sizes `L, T, W ≥ 1` the action codec is a bijection on
its valid domains: every integer in `[0, 1 + L·T + W)` re-encodes to itself
after decoding, decoding follows the claimed shapes (Collapse at 0,
`Add((a-1) mod L, (a-1) div L)` for `1 ≤ a ≤ L·T`, `Word(a - L·T - 1)` above),
every in-domain structured action decodes back from its encoding, and the
total action space size is `1 + L·T + W`. -/
theorem c2_codec_bijection (sys : GeneratorTransitionSystem)
    (hL : 1 ≤ sys.num_labels) (hT : 1 ≤ sys.num_tags) (hW : 1 ≤ sys.num_words) :
    (∀ a : Int, 0 ≤ a → a < sys.NumActions →
        sys.encode (sys.decode a) = a)
  ∧ (∀ act : StructuredAction, sys.validAction act = true →
        sys.decode (sys.encode act) = act)
  ∧ sys.decode 0 = .collapse
  ∧ (∀ a : Int, 1 ≤ a → a ≤ sys.num_labels * sys.num_tags →
        sys.decode a = .add ((a - 1) % sys.num_labels) ((a - 1) / sys.num_labels))
  ∧ (∀ a : Int, sys.num_labels * sys.num_tags < a →
        sys.decode a = .word (a - sys.num_labels * sys.num_tags - 1))
  ∧ sys.NumActions = 1 + sys.num_labels * sys.num_tags + sys.num_words := by
  have hL0 : sys.num_labels ≠ 0 := by omega
  have hLT : 1 ≤ sys.num_labels * sys.num_tags := by
    have := mul_pos (show (0 : Int) < sys.num_labels by omega)
      (show (0 : Int) < sys.num_tags by omega)
    omega
  have hATadd : ∀ a : Int, 1 ≤ a → a ≤ sys.num_labels * sys.num_tags →
      sys.ActionType a = .ADD := by
    intro a h1 h2
    have hne : ¬ a = 0 := by omega
    unfold GeneratorTransitionSystem.ActionType
    rw [if_neg hne, if_pos h2]
  have hATword : ∀ a : Int, sys.num_labels * sys.num_tags < a →
      sys.ActionType a = .WORD := by
    intro a h1
    have hne : ¬ a = 0 := by omega
    unfold GeneratorTransitionSystem.ActionType
    rw [if_neg hne, if_neg (not_le.mpr h1)]
  have hDadd : ∀ a : Int, 1 ≤ a → a ≤ sys.num_labels * sys.num_tags →
      sys.decode a = .add ((a - 1) % sys.num_labels) ((a - 1) / sys.num_labels) := by
    intro a h1 h2
    rw [decode_eq_add sys (hATadd a h1 h2)]
    have hdom : 0 < a ∧ a ≤ sys.num_labels * sys.num_tags := ⟨by omega, h2⟩
    unfold GeneratorTransitionSystem.Label GeneratorTransitionSystem.Tag
    rw [if_pos hdom, if_pos hdom]
  have hDword : ∀ a : Int, sys.num_labels * sys.num_tags < a →
      sys.decode a = .word (a - sys.num_labels * sys.num_tags - 1) := by
    intro a h1
    rw [decode_eq_word sys (hATword a h1)]
    unfold GeneratorTransitionSystem.Word
    rw [if_pos h1]
  refine ⟨?_, ?_, rfl, hDadd, hDword, rfl⟩
  · intro a ha0 haN
    unfold GeneratorTransitionSystem.NumActions at haN
    by_cases h0 : a = 0
    · subst h0
      rfl
    · by_cases hA : a ≤ sys.num_labels * sys.num_tags
      · rw [hDadd a (by omega) hA]
        have henc : sys.encode (.add ((a - 1) % sys.num_labels) ((a - 1) / sys.num_labels))
            = 1 + (a - 1) % sys.num_labels
              + sys.num_labels * ((a - 1) / sys.num_labels) := rfl
        rw [henc]
        have hdm := Int.emod_add_ediv (a - 1) sys.num_labels
        omega
      · rw [hDword a (by omega)]
        have henc : sys.encode (.word (a - sys.num_labels * sys.num_tags - 1))
            = 1 + sys.num_labels * sys.num_tags
              + (a - sys.num_labels * sys.num_tags - 1) := rfl
        rw [henc]
        omega
  · intro act hv
    cases act with
    | collapse => rfl
    | add l t =>
      simp only [GeneratorTransitionSystem.validAction, Bool.and_eq_true,
        decide_eq_true_eq] at hv
      obtain ⟨⟨⟨hl0, hlL⟩, ht0⟩, htT⟩ := hv
      have hmul0 : 0 ≤ sys.num_labels * t := mul_nonneg (by omega) ht0
      have hub : sys.num_labels * (t + 1) ≤ sys.num_labels * sys.num_tags :=
        mul_le_mul_of_nonneg_left (by omega) (by omega)
      rw [mul_add, mul_one] at hub
      have henc : sys.encode (.add l t) = 1 + l + sys.num_labels * t := rfl
      rw [henc, hDadd (1 + l + sys.num_labels * t) (by omega) (by omega)]
      have e1 : 1 + l + sys.num_labels * t - 1 = l + sys.num_labels * t := by ring
      rw [e1, Int.add_mul_emod_self_left, Int.emod_eq_of_lt hl0 hlL,
        Int.add_mul_ediv_left l t hL0, Int.ediv_eq_zero_of_lt hl0 hlL]
      norm_num
    | word w =>
      simp only [GeneratorTransitionSystem.validAction, Bool.and_eq_true,
        decide_eq_true_eq] at hv
      obtain ⟨hw0, hwW⟩ := hv
      have henc : sys.encode (.word w) = 1 + sys.num_labels * sys.num_tags + w := rfl
      rw [henc, hDword (1 + sys.num_labels * sys.num_tags + w) (by omega)]
      congr 1
      ring

/-- Witness for C2 at the concrete system `L=2, T=1, W=2`: integer 3 decodes
and re-encodes to itself, and `Add(1,0)` encodes and decodes back. -/
theorem c2_codec_bijection_witness :
    sys212.encode (sys212.decode 3) = 3
  ∧ sys212.decode (sys212.encode (.add 1 0)) = .add 1 0 := by
  have h := c2_codec_bijection sys212 (by decide) (by decide) (by decide)
  exact ⟨h.1 3 (by decide) (by decide), h.2.1 (.add 1 0) (by decide)⟩

/-- C5: `MissingWord()` is true iff `len(head) > len(word)`; from any state
whose `word` array does not exceed `head` (every reachable state), a state that
is not missing a word becomes missing immediately after a successful `Add`, and
not missing again immediately after the matching `AddWord`. -/
theorem c5_missing_word_lifecycle (s s2 s3 : GeneratorState) (l t w : Int)
    (hlag : s.word.length ≤ s.head.length) :
    (s.MissingWord = true ↔ s.word.length < s.head.length)
  ∧ (s.MissingWord = false → s.Add l t = some s2 → s2.MissingWord = true)
  ∧ (s.MissingWord = false → s.Add l t = some s2 → s2.AddWord w = some s3 →
      s3.MissingWord = false) := by
  refine ⟨by simp [GeneratorState.MissingWord], ?_, ?_⟩
  · intro hmw hadd
    simp only [GeneratorState.MissingWord, decide_eq_false_iff_not, not_lt] at hmw
    obtain ⟨-, -, ⟨s0, -, hhead⟩, -, -, hword, -⟩ := Add_effect hadd
    simp only [GeneratorState.MissingWord, hhead, hword, List.length_append,
      List.length_singleton, decide_eq_true_eq]
    omega
  · intro hmw hadd haddw
    simp only [GeneratorState.MissingWord, decide_eq_false_iff_not, not_lt] at hmw
    obtain ⟨-, -, ⟨s0, -, hhead⟩, -, -, hword, -⟩ := Add_effect hadd
    obtain ⟨-, -, hh3, -, -, hw3, -⟩ := AddWord_effect haddw
    simp only [GeneratorState.MissingWord, hw3, hh3, hhead, hword, List.length_append,
      List.length_singleton, decide_eq_false_iff_not, not_lt]
    omega

/-- Witness for C5 at a concrete depth-2 state: `Add 1 0` then `AddWord 1`. -/
theorem c5_missing_word_lifecycle_witness :
    midStateAdded.MissingWord = true ∧ midStateWorded.MissingWord = false := by
  have h := c5_missing_word_lifecycle midState midStateAdded midStateWorded 1 0 1 (by decide)
  exact ⟨h.2.1 (by decide) (by decide), h.2.2 (by decide) (by decide) (by decide)⟩

/-- C7 counterexample: with `L = T = W = 1` the action space is `[0, 3)`, yet
decoding the out-of-range integer 5 does not fail: it classifies as a WORD
action with the out-of-range word id 3, and the `Label`/`Tag` extractors
silently return the default `-1`; the out-of-range integer `-3` silently
decodes to `Add(-1, -1)` built from default component values. -/
theorem c7_decode_counterexample :
    sys111.NumActions = 3
  ∧ sys111.decode 5 = .word 3
  ∧ sys111.Label 5 = -1 ∧ sys111.Tag 5 = -1
  ∧ ¬ sys111.Word 5 < sys111.num_words
  ∧ sys111.decode (-3) = .add (-1) (-1) := by
  decide

/-- C7 amended: decoding an action integer outside `[0, 1+L·T+W)` does not
fail with an error; `ActionType` totally classifies every integer, the
extractors return the silent default `-1` for components of other kinds, and an
integer at or above the action count decodes to a WORD action whose word id is
out of range (`≥ W`); a negative integer decodes to `Add(-1, -1)` from the
extractors' defaults. -/
theorem c7_decode_out_of_range_is_silent (sys : GeneratorTransitionSystem)
    (hL : 1 ≤ sys.num_labels) (hT : 1 ≤ sys.num_tags) (hW : 1 ≤ sys.num_words)
    (a : Int) :
    (sys.NumActions ≤ a →
      sys.decode a = .word (a - sys.num_labels * sys.num_tags - 1)
      ∧ sys.num_words ≤ sys.Word a)
  ∧ (a < 0 → sys.decode a = .add (-1) (-1)) := by
  have hLT : 1 ≤ sys.num_labels * sys.num_tags := by
    have := mul_pos (show (0 : Int) < sys.num_labels by omega)
      (show (0 : Int) < sys.num_tags by omega)
    omega
  constructor
  · intro ha
    unfold GeneratorTransitionSystem.NumActions at ha
    have h1 : sys.num_labels * sys.num_tags < a := by omega
    have hAT : sys.ActionType a = .WORD := by
      have hne : ¬ a = 0 := by omega
      unfold GeneratorTransitionSystem.ActionType
      rw [if_neg hne, if_neg (not_le.mpr h1)]
    rw [decode_eq_word sys hAT]
    unfold GeneratorTransitionSystem.Word
    rw [if_pos h1]
    exact ⟨rfl, by omega⟩
  · intro ha
    have hne : ¬ a = 0 := by omega
    have h3 : a ≤ sys.num_labels * sys.num_tags := by omega
    have hAT : sys.ActionType a = .ADD := by
      unfold GeneratorTransitionSystem.ActionType
      rw [if_neg hne, if_pos h3]
    rw [decode_eq_add sys hAT]
    have hdom : ¬ (0 < a ∧ a ≤ sys.num_labels * sys.num_tags) := by omega
    unfold GeneratorTransitionSystem.Label GeneratorTransitionSystem.Tag
    rw [if_neg hdom, if_neg hdom]

/-- Witness for the amended C7 at `L = T = W = 1`, integers 5 and `-3`. -/
theorem c7_decode_out_of_range_is_silent_witness :
    (sys111.decode 5 = .word 3 ∧ sys111.num_words ≤ sys111.Word 5)
  ∧ sys111.decode (-3) = .add (-1) (-1) := by
  have h := c7_decode_out_of_range_is_silent sys111 (by decide) (by decide) (by decide)
  exact ⟨(h 5).1 (by decide), (h (-3)).2 (by decide)⟩

/-- C8 counterexample: at a depth-2 state that is not missing a word, Collapse
violates its precondition (`IsAllowedCollapse` is false because the stack depth
is not greater than 2), yet applying it neither fails nor leaves the state
unchanged: the release-build `DCHECK` is a no-op and the action silently pops
the stack. -/
theorem c8_precondition_counterexample :
    sys212.IsAllowedCollapse midState = false
  ∧ midState.MissingWord = false
  ∧ midState.StackSize = 2
  ∧ sys212.PerformActionWithoutHistory CollapseAction midState = some midStatePopped
  ∧ midStatePopped ≠ midState := by
  decide

/-- C8 amended: `Pop` and `Top` on an empty stack, and `Add`/`AddWord` at stack
depth ≤ 1, fail unconditionally (hard `CHECK`s) without mutating the state; the
remaining precondition violations (Collapse when missing a word or at depth
≤ 2 with a non-empty stack, Add when missing a word at depth > 1, AddWord when
not missing a word at depth > 1) are guarded only by debug-mode `DCHECK`s and
silently proceed, mutating the state. -/
theorem c8_checked_vs_dcheck_preconditions :
    (∀ s : GeneratorState, s.stack = [] → s.Pop = none ∧ s.Top = none)
  ∧ (∀ (s : GeneratorState) (l t : Int), s.StackSize ≤ 1 → s.Add l t = none)
  ∧ (∀ (s : GeneratorState) (w : Int), s.StackSize ≤ 1 → s.AddWord w = none)
  ∧ (∀ (sys : GeneratorTransitionSystem) (s : GeneratorState),
      s.stack ≠ [] → (sys.PerformCollapse s).isSome = true)
  ∧ (∀ (s : GeneratorState) (l t : Int), 1 < s.StackSize → (s.Add l t).isSome = true)
  ∧ (∀ (s : GeneratorState) (w : Int), 1 < s.StackSize → (s.AddWord w).isSome = true) := by
  refine ⟨?_, ?_, ?_, ?_, ?_, ?_⟩
  · intro s hs
    unfold GeneratorState.Pop GeneratorState.Top
    rw [hs]
    exact ⟨rfl, rfl⟩
  · intro s l t hs
    unfold GeneratorState.StackSize at hs
    unfold GeneratorState.Add
    match hstk : s.stack with
    | [] => rfl
    | [x] => rfl
    | x :: y :: rest => rw [hstk] at hs; simp at hs
  · intro s w hs
    unfold GeneratorState.StackSize at hs
    unfold GeneratorState.AddWord
    match hstk : s.stack with
    | [] => rfl
    | [x] => rfl
    | x :: y :: rest => rw [hstk] at hs; simp at hs
  · intro sys s hs
    unfold GeneratorTransitionSystem.PerformCollapse GeneratorState.Pop
    match hstk : s.stack with
    | [] => exact absurd hstk hs
    | x :: rest => rfl
  · intro s l t hs
    unfold GeneratorState.StackSize at hs
    unfold GeneratorState.Add
    match hstk : s.stack with
    | [] => rw [hstk] at hs; simp at hs
    | [x] => rw [hstk] at hs; simp at hs
    | x :: y :: rest => rfl
  · intro s w hs
    unfold GeneratorState.StackSize at hs
    unfold GeneratorState.AddWord
    match hstk : s.stack with
    | [] => rw [hstk] at hs; simp at hs
    | [x] => rw [hstk] at hs; simp at hs
    | x :: y :: rest => rfl

/-- Witness for the amended C8 at concrete states: the empty-stack and
depth-1 CHECK failures, and the silent depth-2 Collapse / depth-2 Add. -/
theorem c8_checked_vs_dcheck_preconditions_witness :
    (GeneratorState.initial.Pop = none ∧ GeneratorState.initial.Top = none)
  ∧ initState.Add 0 0 = none
  ∧ initState.AddWord 0 = none
  ∧ (sys212.PerformCollapse midState).isSome = true
  ∧ (midState.Add 1 0).isSome = true
  ∧ (midStateAdded.AddWord 1).isSome = true := by
  have h := c8_checked_vs_dcheck_preconditions
  exact ⟨h.1 GeneratorState.initial rfl,
    h.2.1 initState 0 0 (by decide),
    h.2.2.1 initState 0 (by decide),
    h.2.2.2.1 sys212 midState (by decide),
    h.2.2.2.2.1 midState 1 0 (by decide),
    h.2.2.2.2.2 midStateAdded 1 (by decide)⟩

/-- C4: every state reachable from `Init()` by successfully applying actions
allowed by the legality predicates keeps the token arrays aligned
(`len(head) = len(label) = len(tag)`), the word array lagging by zero or one,
`next` equal to the token count, and the root sentinel `-1` at the bottom of
the stack. -/
theorem c4_reachable_invariant (sys : GeneratorTransitionSystem) (s : GeneratorState)
    (h : ReachableState sys s) : StateInv s := by
  induction h with
  | init => exact ⟨rfl, rfl, Or.inl rfl, rfl, rfl⟩
  | step hr hallow hperf ih =>
    rename_i s1 s2 a
    obtain ⟨ih1, ih2, ih3, ih4, ih5⟩ := ih
    unfold GeneratorTransitionSystem.PerformActionWithoutHistory at hperf
    unfold GeneratorTransitionSystem.IsAllowedAction at hallow
    cases hAT : sys.ActionType a with
    | COLLAPSE =>
      simp only [hAT] at hperf hallow
      obtain ⟨⟨x, hx⟩, hh, hl, ht, hw, hn⟩ := PerformCollapse_effect hperf
      unfold GeneratorTransitionSystem.IsAllowedCollapse at hallow
      simp only [Bool.and_eq_true, Bool.not_eq_true', decide_eq_true_eq] at hallow
      have hsz : 2 < s1.stack.length := hallow.2
      rw [hx, List.length_cons] at hsz
      refine ⟨by rw [hh, hl]; exact ih1, by rw [hh, ht]; exact ih2,
        by rw [hw, hh]; exact ih3, by rw [hn, hh]; exact ih4, ?_⟩
      cases hs2 : s2.stack with
      | nil => rw [hs2] at hsz; simp at hsz
      | cons y ys =>
        rw [hx, hs2] at ih5
        exact ih5
    | ADD =>
      simp only [hAT] at hperf hallow
      unfold GeneratorTransitionSystem.PerformAdd at hperf
      obtain ⟨hsz, hstk, ⟨s0, hs0, hh⟩, hl, ht, hw, hn⟩ := Add_effect hperf
      unfold GeneratorTransitionSystem.IsAllowedAdd at hallow
      simp only [Bool.not_eq_true'] at hallow
      simp only [GeneratorState.MissingWord, decide_eq_false_iff_not, not_lt] at hallow
      refine ⟨?_, ?_, ?_, ?_, ?_⟩
      · rw [hh, hl]
        simp only [List.length_append, List.length_singleton]
        omega
      · rw [hh, ht]
        simp only [List.length_append, List.length_singleton]
        omega
      · refine Or.inr ?_
        rw [hw, hh]
        simp only [List.length_append, List.length_singleton]
        omega
      · rw [hn, hh]
        simp only [List.length_append, List.length_singleton]
        push_cast
        omega
      · rw [hstk]
        cases hs1 : s1.stack with
        | nil => rw [hs1] at hsz; simp at hsz
        | cons y ys =>
          rw [hs1] at ih5
          exact ih5
    | WORD =>
      simp only [hAT] at hperf hallow
      unfold GeneratorTransitionSystem.PerformWord at hperf
      obtain ⟨hsz, hstk, hh, hl, ht, hw, hn⟩ := AddWord_effect hperf
      unfold GeneratorTransitionSystem.IsAllowedWord at hallow
      simp only [GeneratorState.MissingWord, decide_eq_true_eq] at hallow
      refine ⟨by rw [hh, hl]; exact ih1, by rw [hh, ht]; exact ih2, ?_,
        by rw [hn, hh]; exact ih4, by rw [hstk]; exact ih5⟩
      refine Or.inl ?_
      rw [hw, hh]
      simp only [List.length_append, List.length_singleton]
      omega

/-- Witness for C4: the `Init()` state is reachable and satisfies the
invariant. -/
theorem c4_reachable_invariant_witness : StateInv initState :=
  c4_reachable_invariant sys212 initState ReachableState.init

theorem parent_root (s : GeneratorState) (n : Nat) : s.Parent (-1) n = -1 := by
  induction n with
  | zero => rfl
  | succ n ih =>
    show s.Parent (s.Head (-1)) n = -1
    rw [show s.Head (-1) = -1 from rfl]
    exact ih

theorem scanUpChild_exhaust (s : GeneratorState) (target : Int) (fuel : Nat) :
    ∀ i : Int, (∀ j : Int, i ≤ j → j < i + (fuel : Int) → s.Head j ≠ target) →
    scanUpChild s target i fuel = i + (fuel : Int) := by
  induction fuel with
  | zero =>
    intro i _
    simp [scanUpChild]
  | succ fuel ih =>
    intro i h
    unfold scanUpChild
    rw [if_neg (h i le_rfl (by push_cast; omega))]
    rw [ih (i + 1) (fun j hj1 hj2 => h j (by omega) (by push_cast at hj2 ⊢; omega))]
    push_cast
    ring

theorem scanDownChild_exhaust (s : GeneratorState) (target : Int) (fuel : Nat) :
    ∀ i : Int, (∀ j : Int, i - (fuel : Int) < j → j ≤ i → s.Head j ≠ target) →
    scanDownChild s target i fuel = i - (fuel : Int) := by
  induction fuel with
  | zero =>
    intro i _
    simp [scanDownChild]
  | succ fuel ih =>
    intro i h
    unfold scanDownChild
    rw [if_neg (h i (by push_cast; omega) le_rfl)]
    rw [ih (i - 1) (fun j hj1 hj2 => h j (by push_cast at hj1 ⊢; omega) (by omega))]
    push_cast
    ring

theorem leftmostChild_no_child (s : GeneratorState) (x : Int) (n : Nat) (hx : -1 ≤ x)
    (h : ∀ j : Int, -1 ≤ j → j < x → s.Head j ≠ x) :
    s.LeftmostChild x (n + 1) = -2 := by
  have hcast : (((x + 1).toNat : Nat) : Int) = x + 1 :=
    Int.toNat_of_nonneg (by omega)
  have hscan : scanUpChild s x (-1) ((x + 1).toNat) = x := by
    rw [scanUpChild_exhaust s x ((x + 1).toNat) (-1)
      (fun j hj1 hj2 => h j hj1 (by rw [hcast] at hj2; omega))]
    omega
  unfold GeneratorState.LeftmostChild
  simp [hscan]

theorem rightmostChild_no_child (s : GeneratorState) (x : Int) (n : Nat) (hx : -1 ≤ x)
    (hxl : x < (s.head.length : Int))
    (h : ∀ j : Int, x < j → j < (s.head.length : Int) → s.Head j ≠ x) :
    s.RightmostChild x (n + 1) = -2 := by
  have hcast : ((((s.head.length : Int) - 1 - x).toNat : Nat) : Int)
      = (s.head.length : Int) - 1 - x :=
    Int.toNat_of_nonneg (by omega)
  have hscan : scanDownChild s x ((s.head.length : Int) - 1)
      (((s.head.length : Int) - 1 - x).toNat) = x := by
    rw [scanDownChild_exhaust s x (((s.head.length : Int) - 1 - x).toNat)
      ((s.head.length : Int) - 1)
      (fun j hj1 hj2 => h j (by rw [hcast] at hj1; omega) (by omega))]
    omega
  unfold GeneratorState.RightmostChild
  simp [hscan]

theorem lsibScan_exhaust (s : GeneratorState) (h0 : Int) (i : Nat) :
    ∀ n : Nat, 1 ≤ n →
    (List.range i).countP (fun (j : Nat) => decide (s.Head (j : Int) = h0)) < n →
    lsibScan s h0 i n = -2 := by
  induction i with
  | zero =>
    intro n _ _
    rfl
  | succ i ih =>
    intro n h1 h2
    rw [List.range_succ, List.countP_append] at h2
    unfold lsibScan
    by_cases hm : s.Head (i : Int) = h0
    · rw [if_pos hm]
      have hc1 : List.countP (fun (j : Nat) => decide (s.Head (j : Int) = h0)) [i] = 1 := by
        simp [List.countP_cons, hm]
      rw [hc1] at h2
      rw [if_neg (show ¬ n ≤ 1 by omega)]
      exact ih (n - 1) (by omega) (by omega)
    · rw [if_neg hm]
      have hc0 : List.countP (fun (j : Nat) => decide (s.Head (j : Int) = h0)) [i] = 0 := by
        simp [List.countP_cons, hm]
      rw [hc0] at h2
      exact ih n h1 (by omega)

theorem rsibScan_exhaust (s : GeneratorState) (h0 : Int) (fuel : Nat) :
    ∀ i n : Nat, 1 ≤ n →
    (List.range' (i + 1) fuel).countP (fun (j : Nat) => decide (s.Head (j : Int) = h0)) < n →
    rsibScan s h0 fuel i n = -2 := by
  induction fuel with
  | zero =>
    intro i n _ _
    rfl
  | succ fuel ih =>
    intro i n h1 h2
    rw [List.range'_succ, List.countP_cons] at h2
    have hcast : ((i + 1 : Nat) : Int) = (i : Int) + 1 := by push_cast; ring
    unfold rsibScan
    by_cases hm : s.Head ((i : Int) + 1) = h0
    · rw [if_pos hm]
      simp only [hcast, hm, decide_True, if_true] at h2
      rw [if_neg (show ¬ n ≤ 1 by omega)]
      exact ih (i + 1) (n - 1) (by omega) (by omega)
    · rw [if_neg hm]
      simp only [hcast, hm, decide_eq_true_eq] at h2
      have h2b : (List.range' (i + 1 + 1) fuel).countP
          (fun (j : Nat) => decide (s.Head (j : Int) = h0)) < n := by
        simpa using h2
      exact ih (i + 1) n h1 h2b

theorem leftmostChild_zero (s : GeneratorState) (x : Int) :
    s.LeftmostChild x 0 = x := rfl

theorem rightmostChild_zero (s : GeneratorState) (x : Int) :
    s.RightmostChild x 0 = x := rfl

theorem leftmostChild_succ (s : GeneratorState) (x : Int) (n : Nat) :
    s.LeftmostChild x (n + 1) =
      if scanUpChild s x (-1) ((x + 1).toNat) = x then -2
      else s.LeftmostChild (scanUpChild s x (-1) ((x + 1).toNat)) n := rfl

theorem rightmostChild_succ (s : GeneratorState) (x : Int) (n : Nat) :
    s.RightmostChild x (n + 1) =
      if scanDownChild s x ((s.head.length : Int) - 1)
          (((s.head.length : Int) - 1 - x).toNat) = x then -2
      else s.RightmostChild
        (scanDownChild s x ((s.head.length : Int) - 1)
          (((s.head.length : Int) - 1 - x).toNat)) n := rfl

theorem scanUpChild_cases (s : GeneratorState) (target : Int) :
    ∀ (fuel : Nat) (i : Int),
    scanUpChild s target i fuel = i + (fuel : Int) ∨
    (i ≤ scanUpChild s target i fuel ∧ scanUpChild s target i fuel < i + (fuel : Int) ∧
     s.Head (scanUpChild s target i fuel) = target) := by
  intro fuel
  induction fuel with
  | zero =>
    intro i
    left
    simp [scanUpChild]
  | succ fuel ih =>
    intro i
    unfold scanUpChild
    by_cases hm : s.Head i = target
    · rw [if_pos hm]
      right
      exact ⟨le_rfl, by push_cast; omega, hm⟩
    · rw [if_neg hm]
      rcases ih (i + 1) with h | ⟨h1, h2, h3⟩
      · left
        rw [h]
        push_cast
        ring
      · right
        exact ⟨by omega, by push_cast at h2 ⊢; omega, h3⟩

theorem scanDownChild_cases (s : GeneratorState) (target : Int) :
    ∀ (fuel : Nat) (i : Int),
    scanDownChild s target i fuel = i - (fuel : Int) ∨
    (i - (fuel : Int) < scanDownChild s target i fuel ∧
     scanDownChild s target i fuel ≤ i ∧
     s.Head (scanDownChild s target i fuel) = target) := by
  intro fuel
  induction fuel with
  | zero =>
    intro i
    left
    simp [scanDownChild]
  | succ fuel ih =>
    intro i
    unfold scanDownChild
    by_cases hm : s.Head i = target
    · rw [if_pos hm]
      right
      exact ⟨by push_cast; omega, le_rfl, hm⟩
    · rw [if_neg hm]
      rcases ih (i - 1) with h | ⟨h1, h2, h3⟩
      · left
        rw [h]
        push_cast
        ring
      · right
        exact ⟨by push_cast at h1 ⊢; omega, by omega, h3⟩

theorem leftmostChild_sentinel_or_position (s : GeneratorState) :
    ∀ (n : Nat) (x : Int), -1 ≤ x →
    s.LeftmostChild x (n + 1) = -2 ∨
    (0 ≤ s.LeftmostChild x (n + 1) ∧ s.LeftmostChild x (n + 1) < x) := by
  intro n
  induction n with
  | zero =>
    intro x hx
    have hcast : (((x + 1).toNat : Nat) : Int) = x + 1 := Int.toNat_of_nonneg (by omega)
    rw [leftmostChild_succ]
    set c := scanUpChild s x (-1) ((x + 1).toNat) with hc
    rcases scanUpChild_cases s x ((x + 1).toNat) (-1) with h | ⟨h1, h2, h3⟩
    · rw [← hc] at h
      have hcx : c = x := by rw [h, hcast]; ring
      rw [if_pos hcx]
      left
      rfl
    · rw [← hc] at h1 h2 h3
      rw [hcast] at h2
      have hlt : c < x := by omega
      have hge : 0 ≤ c := by
        by_contra hneg
        push_neg at hneg
        have hceq : c = -1 := by omega
        rw [hceq] at h3
        have hhead : s.Head (-1) = -1 := by simp [GeneratorState.Head]
        rw [hhead] at h3
        omega
      have hne : ¬ c = x := by omega
      rw [if_neg hne, leftmostChild_zero]
      right
      exact ⟨hge, hlt⟩
  | succ n ih =>
    intro x hx
    have hcast : (((x + 1).toNat : Nat) : Int) = x + 1 := Int.toNat_of_nonneg (by omega)
    rw [leftmostChild_succ]
    set c := scanUpChild s x (-1) ((x + 1).toNat) with hc
    rcases scanUpChild_cases s x ((x + 1).toNat) (-1) with h | ⟨h1, h2, h3⟩
    · rw [← hc] at h
      have hcx : c = x := by rw [h, hcast]; ring
      rw [if_pos hcx]
      left
      rfl
    · rw [← hc] at h1 h2 h3
      rw [hcast] at h2
      have hlt : c < x := by omega
      have hge : 0 ≤ c := by
        by_contra hneg
        push_neg at hneg
        have hceq : c = -1 := by omega
        rw [hceq] at h3
        have hhead : s.Head (-1) = -1 := by simp [GeneratorState.Head]
        rw [hhead] at h3
        omega
      have hne : ¬ c = x := by omega
      rw [if_neg hne]
      rcases ih c (by omega) with h | ⟨ha, hb⟩
      · left
        exact h
      · right
        exact ⟨ha, by omega⟩

theorem rightmostChild_sentinel_or_position (s : GeneratorState) :
    ∀ (n : Nat) (x : Int), -1 ≤ x → x < (s.head.length : Int) →
    s.RightmostChild x (n + 1) = -2 ∨
    (x < s.RightmostChild x (n + 1) ∧
     s.RightmostChild x (n + 1) < (s.head.length : Int)) := by
  intro n
  induction n with
  | zero =>
    intro x hx hxl
    have hcast : ((((s.head.length : Int) - 1 - x).toNat : Nat) : Int)
        = (s.head.length : Int) - 1 - x := Int.toNat_of_nonneg (by omega)
    rw [rightmostChild_succ]
    set c := scanDownChild s x ((s.head.length : Int) - 1)
      (((s.head.length : Int) - 1 - x).toNat) with hc
    rcases scanDownChild_cases s x (((s.head.length : Int) - 1 - x).toNat)
        ((s.head.length : Int) - 1) with h | ⟨h1, h2, h3⟩
    · rw [← hc] at h
      have hcx : c = x := by rw [h, hcast]; ring
      rw [if_pos hcx]
      left
      rfl
    · rw [← hc] at h1 h2 h3
      rw [hcast] at h1
      have hgt : x < c := by omega
      have hne : ¬ c = x := by omega
      rw [if_neg hne, rightmostChild_zero]
      right
      exact ⟨hgt, by omega⟩
  | succ n ih =>
    intro x hx hxl
    have hcast : ((((s.head.length : Int) - 1 - x).toNat : Nat) : Int)
        = (s.head.length : Int) - 1 - x := Int.toNat_of_nonneg (by omega)
    rw [rightmostChild_succ]
    set c := scanDownChild s x ((s.head.length : Int) - 1)
      (((s.head.length : Int) - 1 - x).toNat) with hc
    rcases scanDownChild_cases s x (((s.head.length : Int) - 1 - x).toNat)
        ((s.head.length : Int) - 1) with h | ⟨h1, h2, h3⟩
    · rw [← hc] at h
      have hcx : c = x := by rw [h, hcast]; ring
      rw [if_pos hcx]
      left
      rfl
    · rw [← hc] at h1 h2 h3
      rw [hcast] at h1
      have hgt : x < c := by omega
      have hne : ¬ c = x := by omega
      rw [if_neg hne]
      rcases ih c (by omega) (by omega) with h | ⟨ha, hb⟩
      · left
        exact h
      · right
        exact ⟨by omega, hb⟩

/-- C6 counterexample: the claim fails in two ways.  First, `Parent(root, n)`
for `n > 0` does not return the not-found sentinel: `Head(-1) = -1`, so
`Parent(-1, 1) = -1` — the root sentinel itself — while the child queries'
sentinel is `-2`, and `-1 ≠ -2`.  Second, the child queries do not return the
sentinel "when fewer than `n` children exist": their `n` counts levels of
descent, not children — on the chain `head = [-1, 0, 1]` token 0 has exactly
one child, yet `RightmostChild(0, 2)` returns 2 (the rightmost child of the
rightmost child), a valid token position, not the sentinel. -/
theorem c6_sentinel_counterexample :
    initState.Parent (-1) 1 = -1
  ∧ initState.LeftmostChild (-1) 1 = -2
  ∧ (-1 : Int) ≠ -2
  ∧ childCount chainState 0 = 1
  ∧ chainState.RightmostChild 0 2 = 2
  ∧ (2 : Int) ≠ -2
  ∧ 0 ≤ (2 : Int) ∧ (2 : Int) < (chainState.head.length : Int) := by
  decide

/-- C6 amended: `LeftmostChild(x, n)` and `RightmostChild(x, n)` interpret `n`
as levels of leftmost- or rightmost-child descent, not as the n-th child: for a
valid `x` each returns either the not-found sentinel `-2` or a valid token
position strictly on the scanned side of `x`; each returns `-2` whenever `x`
has no child strictly to its left/right; and when `x` has children but fewer
than `n`, the descent can return a valid deeper position instead of the
sentinel (`RightmostChild(0, 2) = 2` on `head = [-1, 0, 1]` although token 0
has exactly one child).  `LeftSibling`/`RightSibling(x, n)` return `-2` when
fewer than `n` siblings exist in that direction, and always for the root.  The
sentinel `-2` is distinct from the root sentinel `-1` and from every valid
(non-negative) token position.  `Parent(root, n)` for `n > 0` returns the root
sentinel `-1` itself (the head chain of the root stays at the root), not the
not-found sentinel. -/
theorem c6_navigation_sentinels (s : GeneratorState) (x : Int) (n : Nat)
    (hx : -1 ≤ x) (hxl : x < (s.head.length : Int)) :
    (∀ m : Nat, s.Parent (-1) m = -1)
  ∧ (s.LeftmostChild x (n + 1) = -2
      ∨ (0 ≤ s.LeftmostChild x (n + 1) ∧ s.LeftmostChild x (n + 1) < x))
  ∧ ((∀ j : Int, -1 ≤ j → j < x → s.Head j ≠ x) → s.LeftmostChild x (n + 1) = -2)
  ∧ (s.RightmostChild x (n + 1) = -2
      ∨ (x < s.RightmostChild x (n + 1)
          ∧ s.RightmostChild x (n + 1) < (s.head.length : Int)))
  ∧ ((∀ j : Int, x < j → j < (s.head.length : Int) → s.Head j ≠ x) →
      s.RightmostChild x (n + 1) = -2)
  ∧ (childCount chainState 0 = 1 ∧ chainState.RightmostChild 0 2 = 2)
  ∧ (leftSiblingCount s x < n + 1 → s.LeftSibling x (n + 1) = -2)
  ∧ (rightSiblingCount s x < n + 1 → s.RightSibling x (n + 1) = -2)
  ∧ s.LeftSibling (-1) (n + 1) = -2
  ∧ s.RightSibling (-1) (n + 1) = -2
  ∧ (-2 : Int) ≠ -1
  ∧ (∀ p : Int, 0 ≤ p → (-2 : Int) ≠ p) := by
  refine ⟨parent_root s, leftmostChild_sentinel_or_position s n x hx,
    leftmostChild_no_child s x n hx,
    rightmostChild_sentinel_or_position s n x hx hxl,
    rightmostChild_no_child s x n hx hxl, by decide, ?_, ?_, ?_, ?_, by decide,
    fun p hp => by omega⟩
  · intro hc
    unfold GeneratorState.LeftSibling
    rw [if_neg (Nat.succ_ne_zero n)]
    by_cases hroot : x = -1
    · rw [if_pos hroot]
    · rw [if_neg hroot]
      exact lsibScan_exhaust s (s.Head x) x.toNat (n + 1) (by omega) hc
  · intro hc
    unfold GeneratorState.RightSibling
    rw [if_neg (Nat.succ_ne_zero n)]
    by_cases hroot : x = -1
    · rw [if_pos hroot]
    · rw [if_neg hroot]
      exact rsibScan_exhaust s (s.Head x) (s.head.length - (x.toNat + 1)) x.toNat
        (n + 1) (by omega) hc
  · unfold GeneratorState.LeftSibling
    rw [if_neg (Nat.succ_ne_zero n), if_pos rfl]
  · unfold GeneratorState.RightSibling
    rw [if_neg (Nat.succ_ne_zero n), if_pos rfl]

/-- Witness for the amended C6 on a concrete three-token tree (token 0 under
the root, tokens 1 and 2 under token 0). -/
theorem c6_navigation_sentinels_witness :
    navState.Parent (-1) 2 = -1
  ∧ navState.LeftmostChild 0 1 = -2
  ∧ navState.RightmostChild 2 1 = -2
  ∧ navState.LeftSibling 1 1 = -2
  ∧ navState.RightSibling 2 1 = -2 := by
  have h0 := c6_navigation_sentinels navState 0 0 (by decide) (by decide)
  have h1 := c6_navigation_sentinels navState 1 0 (by decide) (by decide)
  have h2 := c6_navigation_sentinels navState 2 0 (by decide) (by decide)
  refine ⟨h0.1 2, h0.2.2.1 ?_, h2.2.2.2.2.1 ?_,
    h1.2.2.2.2.2.2.1 (by decide), h2.2.2.2.2.2.2.2.1 (by decide)⟩
  · intro j hj1 hj2
    have hj : j = -1 := by omega
    subst hj
    decide
  · intro j hj1 hj2
    have : (navState.head.length : Int) = 3 := by decide
    omega
